import Mathlib

/-!
Shallow embedding of the snake game model in src/sn2ke.py (the current
rewrite of the program; src/2nake.py is an older variant of the same
classes).  Grid coordinates are pairs of integers (row, column), Python
lists/tuples of two ints both embed as `Coord`.  Colors embed as
`Option Int` (`none` is Python `None`, `some n` an int color id);
Python truthiness of a color is `colorTruthy`.  Randomness (spawn
locations) is passed in as explicit arguments.  Operations that raise
in Python return `Option`.
-/

/-- Grid coordinate or per-tick delta: (row, column). -/
abbrev Coord := Int × Int

/-- Model.LEFT in sn2ke.py. -/
def LEFT : Coord := (0, -1)

/-- Model.RIGHT in sn2ke.py. -/
def RIGHT : Coord := (0, 1)

/-- Model.UP in sn2ke.py. -/
def UP : Coord := (-1, 0)

/-- Model.DOWN in sn2ke.py. -/
def DOWN : Coord := (1, 0)

/-- Model.DIRECTIONS in sn2ke.py. -/
def DIRECTIONS : List Coord := [LEFT, RIGHT, UP, DOWN]

/-- Python truthiness of an embedded color value: None and 0 are falsy. -/
def colorTruthy : Option Int → Bool
  | none => false
  | some n => n != 0

/-- State of a Model.SnakePiece (head or tail piece): position, heading
and color.  The glyph (icon) of a piece is a derived property in the
source, embedded below as TailPiece.icon / HeadPiece.icon. -/
structure SnakePiece where
  xy : Coord
  dxdy : Coord
  color : Option Int
deriving DecidableEq, Repr

/-- Model.SnakePiece.is_opposite_direction: an inclusive OR of the two
per-axis negated comparisons, exactly as written in sn2ke.py line 228. -/
def SnakePiece.is_opposite_direction (p : SnakePiece) (dxdy : Coord) : Bool :=
  dxdy.1 == -p.dxdy.1 || dxdy.2 == -p.dxdy.2

/-- Model.SnakePiece.dxdy setter: only assigns when the requested delta is
not in the opposite direction (sn2ke.py lines 234-242). -/
def SnakePiece.setDxdy (p : SnakePiece) (dxdy : Coord) : SnakePiece :=
  if p.is_opposite_direction dxdy then p else { p with dxdy := dxdy }

/-- Model.SnakePiece.move: advance one cell along the current heading. -/
def SnakePiece.move (p : SnakePiece) : SnakePiece :=
  { p with xy := (p.xy.1 + p.dxdy.1, p.xy.2 + p.dxdy.2) }

namespace TailPiece

/-- Model.TailPiece.VERTICAL_CHAR. -/
def VERTICAL_CHAR : Char := '|'

/-- Model.TailPiece.HORIZONTAL_CHAR. -/
def HORIZONTAL_CHAR : Char := '-'

/-- Model.TailPiece.icon: derived from the piece's heading; a stationary
heading raises in Python, embedded as `none`. -/
def icon (p : SnakePiece) : Option Char :=
  if p.dxdy.1 ≠ 0 then some VERTICAL_CHAR
  else if p.dxdy.2 ≠ 0 then some HORIZONTAL_CHAR
  else none

/-- Model.TailPiece.move: `(self.dxdy, self.xy) = (leader.dxdy[:], leader.xy[:])`.
The dxdy assignment goes through the SnakePiece.dxdy setter (with the
opposite-direction check, read against the piece's pre-move dxdy); the xy
assignment is unconditional.  `leader` is the leading piece's state at the
time this piece moves; since Snake.move iterates the tail back to front,
that is the leader's pre-move state. -/
def move (leader p : SnakePiece) : SnakePiece :=
  { p.setDxdy leader.dxdy with xy := leader.xy }

end TailPiece

namespace HeadPiece

/-- Model.HeadPiece glyphs. -/
def UP_CHAR : Char := '^'

/-- Model.HeadPiece.DOWN_CHAR. -/
def DOWN_CHAR : Char := 'V'

/-- Model.HeadPiece.LEFT_CHAR. -/
def LEFT_CHAR : Char := '<'

/-- Model.HeadPiece.RIGHT_CHAR. -/
def RIGHT_CHAR : Char := '>'

/-- Model.HeadPiece.DEFAULT_COLOR (View.COLORS, yellow). -/
def DEFAULT_COLOR : Int := 3

/-- Model.HeadPiece.icon: keyed by the four headings; a stationary heading
raises in Python, embedded as `none`. -/
def icon (p : SnakePiece) : Option Char :=
  if p.dxdy = DOWN then some DOWN_CHAR
  else if p.dxdy = UP then some UP_CHAR
  else if p.dxdy = RIGHT then some RIGHT_CHAR
  else if p.dxdy = LEFT then some LEFT_CHAR
  else none

end HeadPiece

/-- Keymap: a mapping from key codes to deltas (contents irrelevant to the
verified properties, carried as data for the switch_snakes swap). -/
abbrev Keymap := List (Int × Coord)

/-- State of a Model.Snake.  `xy` and `dxdy` are the snake's own attributes
set in Snake.__init__; note that Snake.move never updates `xy` (only the
pieces move), mirroring the source. -/
structure Snake where
  xy : Coord
  dxdy : Coord
  head : SnakePiece
  tail : List SnakePiece
  dead : Bool
  keymap : Keymap
deriving DecidableEq, Repr

/-- Model.TailPiece.__init__: a new tail piece falls one cell behind its
leader, inheriting the leader's heading; its color ends up as the Viewable
default 0 (SnakePiece.__init__ calls Viewable.__init__ with the default
color argument). -/
def newTailPieceFrom (leader : SnakePiece) : SnakePiece :=
  { xy := (leader.xy.1 - leader.dxdy.1, leader.xy.2 - leader.dxdy.2)
    dxdy := leader.dxdy
    color := some 0 }

/-- Helper for Model.Snake.create_tail: chain `n` tail pieces, each built
behind the previous one (the first behind `leader`). -/
def tailChain (leader : SnakePiece) : Nat → List SnakePiece
  | 0 => []
  | n + 1 =>
    let p := newTailPieceFrom leader
    p :: tailChain p n

/-- Model.Snake.create_tail: one piece behind the head plus `length - 2`
more, each behind the last. -/
def create_tail (head : SnakePiece) (length : Nat) : List SnakePiece :=
  tailChain head (1 + (length - 2))

namespace Snake

/-- Model.Snake.tail_color property getter: the first tail piece's color
(raises IndexError on an empty tail in Python; embedded as `none`, only
used on nonempty tails). -/
def tail_color (s : Snake) : Option Int :=
  match s.tail with
  | [] => none
  | p :: _ => p.color

/-- Model.Snake.tail_color property setter: recolor every tail piece. -/
def set_tail_color (s : Snake) (c : Option Int) : Snake :=
  { s with tail := s.tail.map (fun p => { p with color := c }) }

/-- Model.Snake.head_color property setter. -/
def set_head_color (s : Snake) (c : Option Int) : Snake :=
  { s with head := { s.head with color := c } }

/-- Model.Snake.head_color property getter. -/
def head_color (s : Snake) : Option Int := s.head.color

/-- Model.Snake.__init__ : build the head (HeadPiece.__init__ ends by
setting its color to the HeadPiece default), create the tail, then the
`self.tail_color = None` assignment runs the tail_color setter, recoloring
every tail piece to None. -/
def init (xy dxdy : Coord) (length : Nat) (keymap : Keymap) : Snake :=
  let head : SnakePiece := { xy := xy, dxdy := dxdy, color := some HeadPiece.DEFAULT_COLOR }
  let tail := (create_tail head length).map (fun p => { p with color := none })
  { xy := xy, dxdy := dxdy, head := head, tail := tail, dead := false, keymap := keymap }

/-- Model.Snake.new_tail_piece: a TailPiece behind tail[-1] (raises on an
empty tail in Python, embedded as `none`). -/
def new_tail_piece (s : Snake) : Option SnakePiece :=
  s.tail.getLast?.map newTailPieceFrom

/-- Model.Snake.add_tail_piece: append the new piece, then, when the
snake's tail_color is truthy, recolor that last piece to tail_color. -/
def add_tail_piece (s : Snake) : Option Snake :=
  s.new_tail_piece.map fun p =>
    let p := if colorTruthy s.tail_color then { p with color := s.tail_color } else p
    { s with tail := s.tail ++ [p] }

/-- Model.Snake.__len__: the expanded body is the head plus the tail. -/
def size (s : Snake) : Nat := 1 + s.tail.length

/-- Model.Snake.is_colliding_with_self: membership of the snake's own `xy`
attribute among the current tail piece locations (sn2ke.py line 343;
`self.xy` is the construction-time position, never updated by move). -/
def is_colliding_with_self (s : Snake) : Bool :=
  s.tail.any (fun p => decide (p.xy = s.xy))

/-- Model.Snake.move: `for piece in self.tail[::-1]: piece.move()` then
`self.head.move()`.  Iterating the tail back to front means every piece
reads its leader's pre-move state, so the new tail is pointwise
`TailPiece.move` of each old piece with its old leader (head for tail[0],
tail[i-1] for tail[i]). -/
def move (s : Snake) : Snake :=
  { s with
    tail := List.zipWith TailPiece.move (s.head :: s.tail) s.tail
    head := s.head.move }

/-- Model.Snake.dxdy property setter: sets the snake's own `_dxdy`
unconditionally, then assigns the head's dxdy through the checked
SnakePiece setter. -/
def setDxdy (s : Snake) (d : Coord) : Snake :=
  { s with dxdy := d, head := s.head.setDxdy d }

end Snake

/-- Replace the element at an index by applying `f`; out of range is a
no-op.  Used to embed in-place mutation of one element of a Python list. -/
def updateNth (f : α → α) : Nat → List α → List α
  | _, [] => []
  | 0, a :: as => f a :: as
  | n + 1, a :: as => a :: updateNth f n as

/-- A Model.Apple.  `id` embeds Python object identity (remove_apple
deletes by identity); `xy` is the spawn position. -/
structure Apple where
  id : Nat
  xy : Coord
deriving DecidableEq, Repr

/-- Model.Block positions and wall segment positions are bare coordinates. -/
abbrev BlockPos := Coord

/-- State of the Model (the world): two snakes, one score value per snake,
the apple and block collections, the four walls flattened to their wall
block positions, and `collidableTails`, the references held by the
`collidable_objects` container: `snake.tail[1:]` slices taken once in
Model.__init__ (slicing a ViewableContainer copies the member list, so
this is a construction-time snapshot of piece references, encoded as
(snake index, tail index) pairs whose positions are read live). -/
structure Model where
  width : Nat
  height : Nat
  switching : Bool
  snakes : List Snake
  scores : List Nat
  apples : List Apple
  blocks : List BlockPos
  walls : List Coord
  nextAppleId : Nat
  collidableTails : List (Nat × Nat)
deriving DecidableEq, Repr

namespace Model

/-- Model.increment_score: bump the score paired with the scored snake
(zip of scores and snakes; a snake not in the list scores nothing). -/
def increment_score (w : Model) (i : Nat) : Model :=
  { w with scores := updateNth (· + 1) i w.scores }

/-- Model.add_apple with the drawn random location passed explicitly; a
fresh apple is appended to the apples container. -/
def add_apple (w : Model) (xy : Coord) : Model :=
  { w with apples := w.apples ++ [⟨w.nextAppleId, xy⟩],
           nextAppleId := w.nextAppleId + 1 }

/-- Model.remove_apple: ViewableContainer.remove deletes the first
occurrence found by list.index; absence raises (embedded as `none`). -/
def remove_apple (w : Model) (a : Apple) : Option Model :=
  if a ∈ w.apples then some { w with apples := w.apples.erase a } else none

/-- Model.add_block with the drawn random location passed explicitly. -/
def add_block (w : Model) (xy : Coord) : Model :=
  { w with blocks := w.blocks ++ [xy] }

/-- Model.switch_snakes: swap the two snakes' keymaps, head colors and
tail colors (the tail_color setter recolors every tail piece with the
other snake's tail_color, read before either swap).  With fewer than two
snakes the source raises IndexError; that case is never reached in a
round and is embedded as the identity. -/
def switch_snakes (w : Model) : Model :=
  match w.snakes with
  | s0 :: s1 :: rest =>
    let t0 := s0.tail_color
    let t1 := s1.tail_color
    { w with snakes :=
        { s0 with keymap := s1.keymap,
                  head := { s0.head with color := s1.head.color },
                  tail := s0.tail.map (fun p => { p with color := t1 }) } ::
        { s1 with keymap := s0.keymap,
                  head := { s1.head with color := s0.head.color },
                  tail := s1.tail.map (fun p => { p with color := t0 }) } :: rest }
  | _ => w

/-- The keypress handler `snake.dxdy = snake.keymap[char]` applied to the
snake at index `i` (runs the Snake.dxdy property setter). -/
def setSnakeHeading (w : Model) (i : Nat) (d : Coord) : Model :=
  { w with snakes := updateNth (fun s => s.setDxdy d) i w.snakes }

/-- One movement tick of the snake at index `i` (Snake.move). -/
def advanceSnake (w : Model) (i : Nat) : Model :=
  { w with snakes := updateNth Snake.move i w.snakes }

/-- The effect `snake.dead = True` on the snake at index `i`. -/
def setSnakeDead (w : Model) (i : Nat) : Model :=
  { w with snakes := updateNth (fun s => { s with dead := true }) i w.snakes }

end Model

/-- Model.Block.collision_callback: `snake.dead = True`. -/
def Block.collision_callback (w : Model) (i : Nat) : Model :=
  w.setSnakeDead i

/-- Model.WallBlock.collision_callback: `snake.dead = True`. -/
def WallBlock.collision_callback (w : Model) (i : Nat) : Model :=
  w.setSnakeDead i

/-- Model.TailPiece.collision_callback: `snake.dead = True`. -/
def TailPiece.collision_callback (w : Model) (i : Nat) : Model :=
  w.setSnakeDead i

/-- Model.Apple.collision_callback for apple `a` hit by the snake at index
`i`; `na` and `nb` are the random locations drawn for the replacement
apple and the new block.  Source order: increment_score, add_tail_piece,
add_apple, remove_apple, add_block, then switch_snakes in switching mode.
Python exceptions (snake missing, empty tail, apple not a member) embed
as `none`. -/
def Apple.collision_callback (a : Apple) (w : Model) (i : Nat)
    (na nb : Coord) : Option Model :=
  let w1 := w.increment_score i
  (w1.snakes.get? i).bind fun s =>
  s.add_tail_piece.bind fun s2 =>
  let w2 := { w1 with snakes := w1.snakes.set i s2 }
  let w3 := w2.add_apple na
  (w3.remove_apple a).map fun w4 =>
  let w5 := w4.add_block nb
  if w5.switching then w5.switch_snakes else w5

/-- A member of the collidable_objects container: a block, an apple, a
wall block, or a reference to tail piece `j` of snake `i`. -/
inductive Entity where
  | block : BlockPos → Entity
  | apple : Apple → Entity
  | wall : Coord → Entity
  | tailRef : Nat → Nat → Entity
deriving DecidableEq, Repr

/-- The members of Model.collidable_objects, in container order: the
blocks container, the apples container and the walls are consulted live;
the tail references are the construction-time snapshot. -/
def Model.collidableEntities (w : Model) : List Entity :=
  w.blocks.map Entity.block ++ w.apples.map Entity.apple ++
    w.walls.map Entity.wall ++ w.collidableTails.map (fun p => Entity.tailRef p.1 p.2)

/-- Current position of a collidable member (tail references are
dereferenced into the current world). -/
def Entity.currentXY (w : Model) : Entity → Option Coord
  | .block c => some c
  | .apple a => some a.xy
  | .wall c => some c
  | .tailRef s i => (w.snakes.get? s).bind fun sk => (sk.tail.get? i).map SnakePiece.xy

/-- ViewableContainer.get_collision on collidable_objects: look up the
flattened location map at `xy` (later members overwrite earlier ones). -/
def Model.get_collision (w : Model) (xy : Coord) : Option Entity :=
  (w.collidableEntities).foldl
    (fun acc e => if Entity.currentXY w e = some xy then some e else acc) none

/-- View.HEAD_COLORS (green, cyan). -/
def HEAD_COLORS : List Int := [2, 4]

/-- View.TAIL_COLORS (yellow, blue). -/
def TAIL_COLORS : List Int := [3, 5]

/-- Model.get_starting_locations: two (position, heading) starts. -/
def get_starting_locations (width height : Nat) (paired : Bool) :
    List (Coord × Coord) :=
  if !paired then
    [(((5 : Int), ((width / 3 : Nat) : Int)), DOWN),
     (((5 : Int), ((2 * width / 3 : Nat) : Int)), DOWN)]
  else
    [(((5 : Int), ((width / 3 : Nat) : Int)), DOWN),
     ((((height : Int) - 5), ((2 * width / 3 : Nat) : Int)), UP)]

/-- Model.make_walls: the four walls flattened to wall block positions. -/
def make_walls (width height : Nat) : List Coord :=
  ((List.range width).map fun i => ((0 : Int), (i : Int))) ++
  ((List.range height).map fun i => ((i : Int), (0 : Int))) ++
  ((List.range height).map fun i => ((i : Int), (width : Int))) ++
  ((List.range width).map fun i => (((height : Nat) : Int), (i : Int)))

/-- References (snake index, tail index) for a run of tail pieces whose
first element sits at tail index `i` of snake `s`. -/
def sliceRefs (s : Nat) : Nat → List SnakePiece → List (Nat × Nat)
  | _, [] => []
  | i, _ :: rest => (s, i) :: sliceRefs s (i + 1) rest

/-- References held by collidable_objects: `snake.tail[1:]` per snake. -/
def tailRefs : Nat → List Snake → List (Nat × Nat)
  | _, [] => []
  | s, sk :: rest => sliceRefs s 1 (sk.tail.drop 1) ++ tailRefs (s + 1) rest

/-- Model.__init__ with the randomly drawn apple and block locations
passed explicitly.  Builds the snakes (head and tail colors per index),
one score per snake, walls, apples, blocks, and the collidable tail
snapshot `snake.tail[1:]` for each snake. -/
def Model.init (length : Nat) (width height : Nat) (paired switching : Bool)
    (keymaps : List Keymap) (appleLocs blockLocs : List Coord) : Model :=
  let starts := get_starting_locations width height paired
  let snakes := ((starts.zip keymaps).enum).map fun x =>
    ((Snake.init x.2.1.1 x.2.1.2 length x.2.2).set_head_color
        (some (HEAD_COLORS.getD x.1 0))).set_tail_color
        (some (TAIL_COLORS.getD x.1 0))
  { width := width, height := height, switching := switching,
    snakes := snakes,
    scores := snakes.map (fun _ => 0),
    apples := (appleLocs.enum).map (fun x => ⟨x.1, x.2⟩),
    blocks := blockLocs,
    walls := make_walls width height,
    nextAppleId := appleLocs.length,
    collidableTails := tailRefs 0 snakes }

/-- One world mutation performed by the running round's workers: a
keypress heading change, a snake movement tick, an obstacle collision
(block, wall or tail piece, all of which only set the dead flag), or an
apple collision. -/
inductive Model.Step : Model → Model → Prop where
  | turn (w : Model) (i : Nat) (d : Coord) : Step w (w.setSnakeHeading i d)
  | advance (w : Model) (i : Nat) : Step w (w.advanceSnake i)
  | obstacleHit (w : Model) (i : Nat) : Step w (w.setSnakeDead i)
  | appleHit (w w' : Model) (a : Apple) (i : Nat) (na nb : Coord) :
      a.collision_callback w i na nb = some w' → Step w w'

/-- World states reachable during a round from an initial world. -/
inductive Model.Reachable (w0 : Model) : Model → Prop where
  | refl : Reachable w0 w0
  | step {w w' : Model} : Reachable w0 w → Model.Step w w' → Reachable w0 w'

/-- A leaf Model.Viewable for the container-level claims; `id` embeds
Python object identity (distinct objects may share a position). -/
structure Viewable where
  id : Nat
  xy : Coord
deriving DecidableEq, Repr

mutual
/-- A Model.ViewableContainer member: a leaf Viewable or a nested
container (the container child list is encoded as its own inductive so
that recursion stays structural). -/
inductive VTree where
  | leaf : Viewable → VTree
  | container : VTreeList → VTree

/-- The ordered child list of a ViewableContainer. -/
inductive VTreeList where
  | nil : VTreeList
  | cons : VTree → VTreeList → VTreeList
end

mutual
/-- ViewableContainer._expand_viewables: depth-first flattening of the
member trees into the ordered leaf list. -/
def VTree.expand : VTree → List Viewable
  | .leaf v => [v]
  | .container cs => VTreeList.expand cs

/-- Expansion of a child list, preserving order. -/
def VTreeList.expand : VTreeList → List Viewable
  | .nil => []
  | .cons t ts => t.expand ++ VTreeList.expand ts
end

/-- One `locations.update(...)` step: the update of the location map by a
leaf's singleton map `{tuple(v.xy): v}`. -/
def locationsUpdate (m : Coord → Option Viewable) (v : Viewable) :
    Coord → Option Viewable :=
  fun c => if c = v.xy then some v else m c

/-- The location map built by iterating `locations.update` over an ordered
leaf list (later entries overwrite earlier ones at a shared coordinate). -/
def viewablesByLocationList (l : List Viewable) : Coord → Option Viewable :=
  l.foldl locationsUpdate (fun _ => none)

/-- ViewableContainer.viewables_by_location: the location map of the
expanded members. -/
def VTree.viewables_by_location (t : VTree) : Coord → Option Viewable :=
  viewablesByLocationList t.expand

/-- Python list.index: the first index whose element equals the argument
(`none` embeds the ValueError raised when absent). -/
def listIndex : List Viewable → Viewable → Option Nat
  | [], _ => none
  | v :: vs, e => if v = e then some 0 else (listIndex vs e).map (· + 1)

/-- ViewableContainer.remove on the member list:
`del self.viewables[self.viewables.index(item)]`. -/
def containerRemove (l : List Viewable) (e : Viewable) : Option (List Viewable) :=
  (listIndex l e).map (fun i => l.eraseIdx i)

/-- Concrete piece used to instantiate hypothesis-bearing theorems. -/
def fixPiece : SnakePiece := { xy := (0, 0), dxdy := (0, 1), color := none }

/-- Concrete snake (the test_sn2ke.py snake: position (10,10), heading
right, length 5) with the configured tail color yellow. -/
def fixSnake : Snake := (Snake.init (10, 10) RIGHT 5 []).set_tail_color (some 3)

/-- Concrete world with one snake and one apple placed for consumption. -/
def fixWorld : Model :=
  { width := 10
    height := 10
    switching := false
    snakes := [fixSnake]
    scores := [0]
    apples := [⟨0, (2, 2)⟩]
    blocks := []
    walls := []
    nextAppleId := 1
    collidableTails := [(0, 1), (0, 2), (0, 3)] }

/-- Concrete two-snake world (uniform tail colors) for the swap claims. -/
def fixWorld2 : Model :=
  { fixWorld with
    snakes := [fixSnake, (Snake.init (20, 20) DOWN 5 [(1, UP)]).set_tail_color (some 5)]
    scores := [0, 0] }

/-- Concrete constructed world: Model.init with length 5, a 12 by 10
board, two empty keymaps, one apple and one block. -/
def fixInitWorld : Model :=
  Model.init 5 12 10 false false [[], []] [(3, 3)] [(7, 7)]

/-- The fixInitWorld apple. -/
def fixApple : Apple := ⟨0, (3, 3)⟩

/-- fixInitWorld after snake 0 eats fixApple (spawn locations (4,4) and
(6,6)); the eat succeeds, so the getD default is never taken. -/
def fixEatenWorld : Model :=
  (Apple.collision_callback fixApple fixInitWorld 0 (4, 4) (6, 6)).getD fixInitWorld

/-- Concrete container tree: a group holding a nested group and leaves,
with two distinct members sharing coordinate (1,2). -/
def fixTree : VTree :=
  VTree.container (VTreeList.cons (VTree.leaf ⟨0, (1, 2)⟩)
    (VTreeList.cons (VTree.container (VTreeList.cons (VTree.leaf ⟨1, (3, 4)⟩) VTreeList.nil))
      (VTreeList.cons (VTree.leaf ⟨2, (1, 2)⟩) VTreeList.nil)))

/-! Helper lemmas about updateNth and zipWith indexing. -/

theorem updateNth_length (f : α → α) : ∀ (i : Nat) (l : List α),
    (updateNth f i l).length = l.length
  | i, [] => by cases i <;> rfl
  | 0, _ :: _ => rfl
  | i + 1, a :: as => by simp [updateNth, updateNth_length f i as]

theorem updateNth_get?_self (f : α → α) : ∀ (i : Nat) (l : List α),
    (updateNth f i l).get? i = (l.get? i).map f
  | i, [] => by cases i <;> simp [updateNth]
  | 0, _ :: _ => by simp [updateNth]
  | i + 1, a :: as => by simpa [updateNth] using updateNth_get?_self f i as

theorem updateNth_get?_ne (f : α → α) : ∀ (i j : Nat), i ≠ j → ∀ (l : List α),
    (updateNth f i l).get? j = l.get? j
  | i, _, _, [] => by cases i <;> simp [updateNth]
  | 0, 0, h, _ :: _ => absurd rfl h
  | 0, _ + 1, _, _ :: _ => by simp [updateNth]
  | _ + 1, 0, _, _ :: _ => by simp [updateNth]
  | i + 1, j + 1, h, a :: as => by
      simpa [updateNth] using updateNth_get?_ne f i j (by omega) as

/-- C6: the claim says is_colliding_with_self is true exactly when the
head's position after advancing coincides with a tail segment's position.
On the length-5 snake from (10,10) heading right, after one move the head
at (10,11) touches no tail segment, yet the code returns true: it tests
the snake's construction-time `xy` attribute (still (10,10), now occupied
by the first tail piece) instead of the head's position. -/
theorem C6_self_collision_bug :
    (Snake.init (10, 10) RIGHT 5 []).move.is_colliding_with_self = true ∧
    ((Snake.init (10, 10) RIGHT 5 []).move.tail.map SnakePiece.xy).contains
      (Snake.init (10, 10) RIGHT 5 []).move.head.xy = false := by decide

/-- C1 counterexample: the claim says each tail segment copies the
heading and glyph of the segment ahead of it.  (a) On a straight length-2
snake heading down, after one advance the first tail segment's glyph is
the vertical bar, not the prior head glyph.  (b) After two 90-degree
turns between ticks (right, then up, then left), the head's heading is
the exact inverse of the first tail piece's, so the dxdy setter rejects
the copy: the tail piece keeps heading right instead of copying left. -/
theorem C1_counterexample :
    (((Snake.init (10, 10) DOWN 2 []).move.tail.get? 0).map TailPiece.icon =
      some (some TailPiece.VERTICAL_CHAR) ∧
     HeadPiece.icon (Snake.init (10, 10) DOWN 2 []).head = some HeadPiece.DOWN_CHAR ∧
     ((Snake.init (10, 10) DOWN 2 []).move.tail.get? 0).map TailPiece.icon ≠
      some (HeadPiece.icon (Snake.init (10, 10) DOWN 2 []).head)) ∧
    ((((Snake.init (20, 20) RIGHT 5 []).setDxdy UP).setDxdy LEFT).move.tail.get? 0).map
      SnakePiece.dxdy = some RIGHT ∧
    (((Snake.init (20, 20) RIGHT 5 []).setDxdy UP).setDxdy LEFT).head.dxdy = LEFT ∧
    RIGHT ≠ LEFT := by decide

/-- C1 (amended): one advance keeps the segment count, moves the head one
cell along its heading, and gives each tail segment the prior position of
the segment ahead of it; the heading is copied from that segment unless
it is the exact additive inverse of the tail segment's own prior heading
(then it is kept); the glyph is recomputed from the resulting heading
(the tail glyph keyed by the copied heading, not the head's arrow). -/
theorem C1_advance (s : Snake) :
    s.move.tail.length = s.tail.length ∧
    s.move.head.xy = (s.head.xy.1 + s.head.dxdy.1, s.head.xy.2 + s.head.dxdy.2) ∧
    s.move.head.dxdy = s.head.dxdy ∧
    ∀ i : Nat, i < s.tail.length →
      ∃ p leader, s.tail.get? i = some p ∧ (s.head :: s.tail).get? i = some leader ∧
        (s.move.tail.get? i).map SnakePiece.xy = some leader.xy ∧
        (s.move.tail.get? i).map SnakePiece.dxdy =
          some (if p.is_opposite_direction leader.dxdy then p.dxdy else leader.dxdy) ∧
        (s.move.tail.get? i).map SnakePiece.color = some p.color ∧
        (p.is_opposite_direction leader.dxdy = false →
          (s.move.tail.get? i).map TailPiece.icon = some (TailPiece.icon leader)) := by
  refine ⟨?_, rfl, rfl, ?_⟩
  · show (List.zipWith TailPiece.move (s.head :: s.tail) s.tail).length = _
    rw [List.length_zipWith]
    simp [List.length_cons]
  · intro i hi
    obtain ⟨p, hp⟩ : ∃ p, s.tail.get? i = some p := ⟨_, List.get?_eq_get hi⟩
    obtain ⟨leader, hl⟩ : ∃ leader, (s.head :: s.tail).get? i = some leader :=
      ⟨_, List.get?_eq_get (by simp; omega)⟩
    have hz : s.move.tail.get? i = some (TailPiece.move leader p) := by
      show (List.zipWith TailPiece.move (s.head :: s.tail) s.tail).get? i = _
      rw [List.get?_zipWith', hl, hp]
      rfl
    refine ⟨p, leader, hp, hl, ?_, ?_, ?_, ?_⟩
    · rw [hz]; rfl
    · rw [hz]
      simp only [Option.map_some', Option.some.injEq, TailPiece.move,
        SnakePiece.setDxdy]
      split <;> rfl
    · rw [hz]
      simp only [Option.map_some', Option.some.injEq, TailPiece.move,
        SnakePiece.setDxdy]
      split <;> rfl
    · intro hop
      rw [hz]
      simp [TailPiece.move, SnakePiece.setDxdy, hop, TailPiece.icon]

/-- Witness for C1_advance at the concrete test snake, index 0. -/
theorem C1_advance_witness :
    0 < fixSnake.tail.length ∧
    (∃ p leader, fixSnake.tail.get? 0 = some p ∧
      (fixSnake.head :: fixSnake.tail).get? 0 = some leader ∧
      (fixSnake.move.tail.get? 0).map SnakePiece.xy = some leader.xy ∧
      (fixSnake.move.tail.get? 0).map SnakePiece.dxdy =
        some (if p.is_opposite_direction leader.dxdy then p.dxdy else leader.dxdy) ∧
      (fixSnake.move.tail.get? 0).map SnakePiece.color = some p.color ∧
      (p.is_opposite_direction leader.dxdy = false →
        (fixSnake.move.tail.get? 0).map TailPiece.icon = some (TailPiece.icon leader))) :=
  ⟨by decide, (C1_advance fixSnake).2.2.2 0 (by decide)⟩

/-- C2: with the current heading one of the four unit deltas, requesting
the exact additive inverse leaves the piece unchanged (and raises no
error), and requesting any other unit delta leaves the heading equal to
the requested value with position and color untouched. -/
theorem C2_setHeading (p : SnakePiece) (h : p.dxdy ∈ DIRECTIONS) :
    p.setDxdy (-p.dxdy.1, -p.dxdy.2) = p ∧
    ∀ e ∈ DIRECTIONS, e ≠ (-p.dxdy.1, -p.dxdy.2) →
      (p.setDxdy e).dxdy = e ∧ (p.setDxdy e).xy = p.xy ∧
      (p.setDxdy e).color = p.color := by
  obtain ⟨xy, d, c⟩ := p
  constructor
  · simp [SnakePiece.setDxdy, SnakePiece.is_opposite_direction]
  · simp only [DIRECTIONS, LEFT, RIGHT, UP, DOWN, List.mem_cons,
      List.not_mem_nil, or_false] at h
    intro e he hne
    simp only [DIRECTIONS, LEFT, RIGHT, UP, DOWN, List.mem_cons,
      List.not_mem_nil, or_false] at he
    rcases h with h | h | h | h <;> subst h <;>
      rcases he with he | he | he | he <;> subst he <;>
      simp_all [SnakePiece.setDxdy, SnakePiece.is_opposite_direction]

/-- Witness for C2_setHeading at a concrete piece heading right. -/
theorem C2_setHeading_witness :
    fixPiece.dxdy ∈ DIRECTIONS ∧
    (fixPiece.setDxdy (-fixPiece.dxdy.1, -fixPiece.dxdy.2) = fixPiece ∧
     ∀ e ∈ DIRECTIONS, e ≠ (-fixPiece.dxdy.1, -fixPiece.dxdy.2) →
       (fixPiece.setDxdy e).dxdy = e ∧ (fixPiece.setDxdy e).xy = fixPiece.xy ∧
       (fixPiece.setDxdy e).color = fixPiece.color) :=
  ⟨by decide, C2_setHeading fixPiece (by decide)⟩

/-- C7: add_tail_piece appends exactly one segment, placed one cell
behind the previously-last segment against that segment's heading,
inheriting its heading; with the body's tail color configured (truthy),
the new segment takes that color. -/
theorem C7_grow (s : Snake) (h : s.tail ≠ [])
    (hc : colorTruthy s.tail_color = true) :
    ∃ p : SnakePiece, s.add_tail_piece = some { s with tail := s.tail ++ [p] } ∧
      p.xy = ((s.tail.getLast h).xy.1 - (s.tail.getLast h).dxdy.1,
              (s.tail.getLast h).xy.2 - (s.tail.getLast h).dxdy.2) ∧
      p.dxdy = (s.tail.getLast h).dxdy ∧
      p.color = s.tail_color ∧
      Snake.size { s with tail := s.tail ++ [p] } = s.size + 1 := by
  refine ⟨{ newTailPieceFrom (s.tail.getLast h) with color := s.tail_color }, ?_, rfl, rfl, rfl, ?_⟩
  · rw [Snake.add_tail_piece, Snake.new_tail_piece,
      List.getLast?_eq_getLast_of_ne_nil h]
    simp [hc]
  · simp only [Snake.size, List.length_append, List.length_cons, List.length_nil]
    omega

/-- Witness for C7_grow at the concrete configured snake. -/
theorem C7_grow_witness :
    fixSnake.tail ≠ [] ∧ colorTruthy fixSnake.tail_color = true ∧
    (∃ p : SnakePiece,
      fixSnake.add_tail_piece = some { fixSnake with tail := fixSnake.tail ++ [p] } ∧
      p.xy = ((fixSnake.tail.getLast (by decide)).xy.1 -
                (fixSnake.tail.getLast (by decide)).dxdy.1,
              (fixSnake.tail.getLast (by decide)).xy.2 -
                (fixSnake.tail.getLast (by decide)).dxdy.2) ∧
      p.dxdy = (fixSnake.tail.getLast (by decide)).dxdy ∧
      p.color = fixSnake.tail_color ∧
      Snake.size { fixSnake with tail := fixSnake.tail ++ [p] } = fixSnake.size + 1) :=
  ⟨by decide, by decide, C7_grow fixSnake (by decide) (by decide)⟩

/-- C4: a block, wall block or tail piece collision marks the hit snake
dead and changes nothing else: scores, apples, blocks, walls, the
collidable snapshot, the other snakes, and the hit snake's own segment
count and segment positions are all unchanged. -/
theorem C4_obstacle_kills_only (w : Model) (i : Nat) (hi : i < w.snakes.length) :
    ∀ w' ∈ [Block.collision_callback w i, WallBlock.collision_callback w i,
            TailPiece.collision_callback w i],
      w'.scores = w.scores ∧ w'.apples = w.apples ∧ w'.blocks = w.blocks ∧
      w'.walls = w.walls ∧ w'.collidableTails = w.collidableTails ∧
      w'.snakes.length = w.snakes.length ∧
      (∀ j, j ≠ i → w'.snakes.get? j = w.snakes.get? j) ∧
      w'.snakes.get? i = (w.snakes.get? i).map (fun s => { s with dead := true }) ∧
      (w'.snakes.get? i).map (fun s => (s.size, s.head.xy, s.tail.map SnakePiece.xy)) =
        (w.snakes.get? i).map (fun s => (s.size, s.head.xy, s.tail.map SnakePiece.xy)) ∧
      (w'.snakes.get? i).map Snake.dead = some true := by
  have hkill : ∀ w' : Model, w' = w.setSnakeDead i →
      w'.scores = w.scores ∧ w'.apples = w.apples ∧ w'.blocks = w.blocks ∧
      w'.walls = w.walls ∧ w'.collidableTails = w.collidableTails ∧
      w'.snakes.length = w.snakes.length ∧
      (∀ j, j ≠ i → w'.snakes.get? j = w.snakes.get? j) ∧
      w'.snakes.get? i = (w.snakes.get? i).map (fun s => { s with dead := true }) ∧
      (w'.snakes.get? i).map (fun s => (s.size, s.head.xy, s.tail.map SnakePiece.xy)) =
        (w.snakes.get? i).map (fun s => (s.size, s.head.xy, s.tail.map SnakePiece.xy)) ∧
      (w'.snakes.get? i).map Snake.dead = some true := by
    rintro _ rfl
    obtain ⟨s, hs⟩ : ∃ s, w.snakes.get? i = some s := ⟨_, List.get?_eq_get hi⟩
    refine ⟨rfl, rfl, rfl, rfl, rfl, updateNth_length _ i _, ?_, ?_, ?_, ?_⟩
    · intro j hj
      exact updateNth_get?_ne _ i j (fun h => hj h.symm) w.snakes
    · show (updateNth _ i w.snakes).get? i = _
      rw [updateNth_get?_self]
    · show ((updateNth _ i w.snakes).get? i).map _ = _
      rw [updateNth_get?_self, hs]
      rfl
    · show ((updateNth _ i w.snakes).get? i).map _ = _
      rw [updateNth_get?_self, hs]
      rfl
  intro w' hw'
  simp only [List.mem_cons, List.not_mem_nil, or_false] at hw'
  rcases hw' with rfl | rfl | rfl
  · exact hkill _ rfl
  · exact hkill _ rfl
  · exact hkill _ rfl

/-- Witness for C4_obstacle_kills_only at the concrete one-snake world. -/
theorem C4_obstacle_kills_only_witness :
    0 < fixWorld.snakes.length ∧
    (∀ w' ∈ [Block.collision_callback fixWorld 0,
             WallBlock.collision_callback fixWorld 0,
             TailPiece.collision_callback fixWorld 0],
      w'.scores = fixWorld.scores ∧ w'.apples = fixWorld.apples ∧
      w'.blocks = fixWorld.blocks ∧ w'.walls = fixWorld.walls ∧
      w'.collidableTails = fixWorld.collidableTails ∧
      w'.snakes.length = fixWorld.snakes.length ∧
      (∀ j, j ≠ 0 → w'.snakes.get? j = fixWorld.snakes.get? j) ∧
      w'.snakes.get? 0 = (fixWorld.snakes.get? 0).map (fun s => { s with dead := true }) ∧
      (w'.snakes.get? 0).map (fun s => (s.size, s.head.xy, s.tail.map SnakePiece.xy)) =
        (fixWorld.snakes.get? 0).map (fun s => (s.size, s.head.xy, s.tail.map SnakePiece.xy)) ∧
      (w'.snakes.get? 0).map Snake.dead = some true) :=
  ⟨by decide, C4_obstacle_kills_only fixWorld 0 (by decide)⟩

/-! Frame lemmas for switch_snakes, used by the apple-collision and swap
claims. -/

theorem switch_snakes_frame (w : Model) :
    (w.switch_snakes).scores = w.scores ∧ (w.switch_snakes).apples = w.apples ∧
    (w.switch_snakes).blocks = w.blocks ∧ (w.switch_snakes).walls = w.walls ∧
    (w.switch_snakes).collidableTails = w.collidableTails ∧
    (w.switch_snakes).switching = w.switching ∧
    (w.switch_snakes).nextAppleId = w.nextAppleId := by
  rcases hw : w.snakes with _ | ⟨s0, rest⟩
  · simp [Model.switch_snakes, hw]
  · rcases rest with _ | ⟨s1, rest'⟩ <;> simp [Model.switch_snakes, hw]

theorem switch_snakes_size (w : Model) (i : Nat) :
    ((w.switch_snakes).snakes.get? i).map Snake.size =
      (w.snakes.get? i).map Snake.size := by
  rcases hw : w.snakes with _ | ⟨s0, rest⟩
  · simp [Model.switch_snakes, hw]
  · rcases rest with _ | ⟨s1, rest'⟩
    · simp [Model.switch_snakes, hw]
    · rcases i with _ | ⟨_ | j⟩ <;>
        simp [Model.switch_snakes, hw, Snake.size]

/-- C3: consuming an apple that is a member of the apples container
increments the eating snake's score by one, grows that snake by one
segment, removes the consumed apple while spawning exactly one new apple
(total apple count unchanged, hence still positive), and adds exactly one
block.  The guard hypothesis records that in switching mode the source
presupposes two snakes with nonempty tails (otherwise switch_snakes would
raise). -/
theorem C3_apple_effect (w : Model) (a : Apple) (i : Nat) (na nb : Coord)
    (ha : a ∈ w.apples) (hi : i < w.snakes.length) (hsc : i < w.scores.length)
    (hti : ∀ s ∈ w.snakes, s.tail ≠ [])
    (hguard : w.switching = true → 2 ≤ w.snakes.length) :
    ∃ w', a.collision_callback w i na nb = some w' ∧
      (∃ n, w.scores.get? i = some n ∧ w'.scores.get? i = some (n + 1)) ∧
      (∃ s, w.snakes.get? i = some s ∧
        (w'.snakes.get? i).map Snake.size = some (s.size + 1)) ∧
      w'.apples = w.apples.erase a ++ [⟨w.nextAppleId, na⟩] ∧
      w'.apples.length = w.apples.length ∧
      0 < w'.apples.length ∧
      (⟨w.nextAppleId, na⟩ : Apple) ∈ w'.apples ∧
      w'.blocks = w.blocks ++ [nb] ∧
      w'.blocks.length = w.blocks.length + 1 := by
  clear hguard
  obtain ⟨s, hs⟩ : ∃ s, w.snakes.get? i = some s := ⟨_, List.get?_eq_get hi⟩
  have htail := hti s (List.get?_mem hs)
  obtain ⟨lastp, hlast⟩ : ∃ p, s.tail.getLast? = some p :=
    ⟨_, List.getLast?_eq_getLast_of_ne_nil htail⟩
  obtain ⟨s2, hadd, hsize⟩ : ∃ s2, s.add_tail_piece = some s2 ∧ s2.size = s.size + 1 := by
    rw [Snake.add_tail_piece, Snake.new_tail_piece, hlast]
    refine ⟨_, rfl, ?_⟩
    simp only [Snake.size, List.length_append, List.length_cons, List.length_nil]
    omega
  obtain ⟨n, hn⟩ : ∃ n, w.scores.get? i = some n := ⟨_, List.get?_eq_get hsc⟩
  have hmem3 : a ∈ (w.apples ++ [(⟨w.nextAppleId, na⟩ : Apple)]) :=
    List.mem_append_left _ ha
  have herase : (w.apples ++ [(⟨w.nextAppleId, na⟩ : Apple)]).erase a =
      w.apples.erase a ++ [⟨w.nextAppleId, na⟩] :=
    List.erase_append_left _ ha
  have hlen : (w.apples.erase a ++ [(⟨w.nextAppleId, na⟩ : Apple)]).length =
      w.apples.length := by
    have := List.length_erase_add_one ha
    simp only [List.length_append, List.length_cons, List.length_nil]
    omega
  have hpos : 0 < w.apples.length := List.length_pos_of_mem ha
  set w5 : Model :=
    { w with
      scores := updateNth (· + 1) i w.scores,
      snakes := w.snakes.set i s2,
      apples := (w.apples ++ [(⟨w.nextAppleId, na⟩ : Apple)]).erase a,
      blocks := w.blocks ++ [nb],
      nextAppleId := w.nextAppleId + 1 } with hw5
  have hcb : a.collision_callback w i na nb =
      some (if w5.switching = true then w5.switch_snakes else w5) := by
    rw [hw5]
    simp only [Apple.collision_callback, Model.increment_score, Model.add_apple,
      Model.remove_apple, Model.add_block, hs, hadd, Option.some_bind, hmem3,
      if_pos, Option.map_some']
  have hsc5 : w5.scores = updateNth (· + 1) i w.scores := by rw [hw5]
  have hap5 : w5.apples = w.apples.erase a ++ [(⟨w.nextAppleId, na⟩ : Apple)] := by
    rw [hw5]
    exact herase
  have hbl5 : w5.blocks = w.blocks ++ [nb] := by rw [hw5]
  have hsn5 : w5.snakes = w.snakes.set i s2 := by rw [hw5]
  have hscore5 : w5.scores.get? i = some (n + 1) := by
    rw [hsc5, updateNth_get?_self, hn]
    rfl
  have hsize5 : (w5.snakes.get? i).map Snake.size = some (s.size + 1) := by
    rw [hsn5, List.get?_set_eq_of_lt _ hi, Option.map_some', hsize]
  by_cases hb : w.switching = true
  · have hcond : w5.switching = true := by rw [hw5]; exact hb
    rw [if_pos hcond] at hcb
    obtain ⟨hfs, hfa, hfb, -, -, -, -⟩ := switch_snakes_frame w5
    refine ⟨_, hcb, ⟨n, hn, ?_⟩, ⟨s, hs, ?_⟩, ?_, ?_, ?_, ?_, ?_, ?_⟩
    · rw [hfs]
      exact hscore5
    · rw [switch_snakes_size]
      exact hsize5
    · rw [hfa]
      exact hap5
    · rw [hfa, hap5]
      exact hlen
    · rw [hfa, hap5, hlen]
      exact hpos
    · rw [hfa, hap5]
      exact List.mem_append_right _ (List.mem_singleton_self _)
    · rw [hfb]
    · rw [hfb, hbl5]
      simp
  · have hcond : ¬ (w5.switching = true) := by rw [hw5]; exact hb
    rw [if_neg hcond] at hcb
    refine ⟨_, hcb, ⟨n, hn, hscore5⟩, ⟨s, hs, hsize5⟩, hap5, ?_, ?_, ?_, hbl5, ?_⟩
    · rw [hap5]
      exact hlen
    · rw [hap5, hlen]
      exact hpos
    · rw [hap5]
      exact List.mem_append_right _ (List.mem_singleton_self _)
    · rw [hbl5]
      simp

/-- Witness for C3_apple_effect: the concrete one-snake world eats its
only apple; spawn locations (4,4) and (6,6). -/
theorem C3_apple_effect_witness :
    ((⟨0, (2, 2)⟩ : Apple) ∈ fixWorld.apples ∧ 0 < fixWorld.snakes.length ∧
     0 < fixWorld.scores.length ∧ (∀ s ∈ fixWorld.snakes, s.tail ≠ []) ∧
     (fixWorld.switching = true → 2 ≤ fixWorld.snakes.length)) ∧
    (∃ w', Apple.collision_callback ⟨0, (2, 2)⟩ fixWorld 0 (4, 4) (6, 6) = some w' ∧
      (∃ n, fixWorld.scores.get? 0 = some n ∧ w'.scores.get? 0 = some (n + 1)) ∧
      (∃ s, fixWorld.snakes.get? 0 = some s ∧
        (w'.snakes.get? 0).map Snake.size = some (s.size + 1)) ∧
      w'.apples = fixWorld.apples.erase ⟨0, (2, 2)⟩ ++ [⟨fixWorld.nextAppleId, (4, 4)⟩] ∧
      w'.apples.length = fixWorld.apples.length ∧
      0 < w'.apples.length ∧
      (⟨fixWorld.nextAppleId, (4, 4)⟩ : Apple) ∈ w'.apples ∧
      w'.blocks = fixWorld.blocks ++ [(6, 6)] ∧
      w'.blocks.length = fixWorld.blocks.length + 1) :=
  ⟨⟨by decide, by decide, by decide, by decide, by decide⟩,
   C3_apple_effect fixWorld ⟨0, (2, 2)⟩ 0 (4, 4) (6, 6)
     (by decide) (by decide) (by decide) (by decide) (by decide)⟩

/-- containerRemove removes the first occurrence of a member and fails on
a non-member, exactly list.index followed by del. -/
theorem containerRemove_eq (l : List Viewable) (e : Viewable) :
    containerRemove l e = if e ∈ l then some (l.erase e) else none := by
  induction l with
  | nil => simp [containerRemove, listIndex]
  | cons v vs ih =>
    by_cases hv : v = e
    · subst hv
      simp [containerRemove, listIndex, List.erase_cons_head]
    · rcases hidx : listIndex vs e with _ | k
      · have hnm : e ∉ vs := by
          intro hmem
          rw [containerRemove, hidx] at ih
          simp [hmem] at ih
        have hne : ¬ e ∈ v :: vs := by
          intro hc
          rcases List.mem_cons.mp hc with h | h
          · exact hv h.symm
          · exact hnm h
        simp [containerRemove, listIndex, hv, hidx, hne]
      · have hpair : e ∈ vs ∧ vs.eraseIdx k = vs.erase e := by
          rw [containerRemove, hidx] at ih
          by_cases hmem : e ∈ vs
          · simp only [hmem, if_true, Option.map_some', Option.some.injEq] at ih
            exact ⟨hmem, ih⟩
          · simp [hmem] at ih
        have herase : (v :: vs).erase e = v :: vs.erase e :=
          List.erase_cons_tail (not_beq_of_ne hv)
        simp [containerRemove, listIndex, hv, hidx, List.mem_cons, hpair.1,
          herase, hpair.2]

/-- C9 counterexample: appending the same entity twice and removing it
once leaves it a member, refuting the claim that after a successful
removal the entity is no longer a member. -/
theorem C9_counterexample :
    (⟨0, (1, 1)⟩ : Viewable) ∈ [(⟨0, (1, 1)⟩ : Viewable), ⟨0, (1, 1)⟩] ∧
    containerRemove [⟨0, (1, 1)⟩, ⟨0, (1, 1)⟩] ⟨0, (1, 1)⟩ = some [⟨0, (1, 1)⟩] ∧
    (⟨0, (1, 1)⟩ : Viewable) ∈ [(⟨0, (1, 1)⟩ : Viewable)] := by decide

/-- C9 (amended): remove errors exactly when the entity is not a member;
on a member it succeeds and deletes the first occurrence, so the
multiplicity drops by one and the entity is gone afterwards exactly when
it had multiplicity one. -/
theorem C9_remove (l : List Viewable) (e : Viewable) :
    (containerRemove l e = none ↔ e ∉ l) ∧
    (e ∈ l → ∃ y, containerRemove l e = some y ∧
      y.length + 1 = l.length ∧
      y.count e + 1 = l.count e ∧
      (e ∉ y ↔ l.count e = 1)) := by
  constructor
  · rw [containerRemove_eq]
    by_cases hmem : e ∈ l <;> simp [hmem]
  · intro hmem
    have hc : 0 < l.count e := List.count_pos_iff_mem.mpr hmem
    have hce := List.count_erase_self e l
    refine ⟨l.erase e, by rw [containerRemove_eq, if_pos hmem], ?_, ?_, ?_⟩
    · exact List.length_erase_add_one hmem
    · omega
    · constructor
      · intro hne
        have h0 : (l.erase e).count e = 0 := List.count_eq_zero.mpr hne
        omega
      · intro h1 hin
        have : 0 < (l.erase e).count e := List.count_pos_iff_mem.mpr hin
        omega

/-- Witness for C9_remove on a singleton group. -/
theorem C9_remove_witness :
    (⟨5, (2, 2)⟩ : Viewable) ∈ [(⟨5, (2, 2)⟩ : Viewable)] ∧
    (∃ y, containerRemove [(⟨5, (2, 2)⟩ : Viewable)] ⟨5, (2, 2)⟩ = some y ∧
      y.length + 1 = [(⟨5, (2, 2)⟩ : Viewable)].length ∧
      y.count ⟨5, (2, 2)⟩ + 1 = [(⟨5, (2, 2)⟩ : Viewable)].count ⟨5, (2, 2)⟩ ∧
      ((⟨5, (2, 2)⟩ : Viewable) ∉ y ↔
        [(⟨5, (2, 2)⟩ : Viewable)].count ⟨5, (2, 2)⟩ = 1)) :=
  ⟨by decide, (C9_remove [(⟨5, (2, 2)⟩ : Viewable)] ⟨5, (2, 2)⟩).2 (by decide)⟩

/-- The dict built by iterating update maps a coordinate to the last
member at that coordinate, falling back to the initial map. -/
theorem foldl_locationsUpdate (l : List Viewable) :
    ∀ (m : Coord → Option Viewable) (c : Coord),
      l.foldl locationsUpdate m c =
        ((l.filter (fun v => decide (v.xy = c))).getLast?).elim (m c) some := by
  induction l with
  | nil => intro m c; rfl
  | cons v vs ih =>
    intro m c
    rw [List.foldl_cons, ih]
    by_cases hvc : v.xy = c
    · rw [List.filter_cons_of_pos (by simpa using hvc)]
      rcases hf : vs.filter (fun v => decide (v.xy = c)) with _ | ⟨w, ws⟩
      · simp only [hf, List.getLast?_nil, Option.elim_none, Option.elim_some,
          List.getLast?_singleton, locationsUpdate]
        rw [if_pos hvc.symm]
      · have hne : w :: ws ≠ [] := by simp
        rw [hf, show v :: w :: ws = [v] ++ (w :: ws) from rfl,
          List.getLast?_append_of_ne_nil _ hne,
          List.getLast?_eq_getLast_of_ne_nil hne]
        rfl
    · rw [List.filter_cons_of_neg (by simpa using hvc)]
      have hupd : locationsUpdate m v c = m c := by
        rw [locationsUpdate, if_neg (fun h => hvc h.symm)]
      rw [hupd]

/-- C8: the flattened location map of an entity group covers every
member's current coordinate; at each coordinate it holds exactly the
last member (in expansion order) at that coordinate, so when exactly two
members A then B share a coordinate the map holds B. -/
theorem C8_flatten_lww (t : VTree) :
    (∀ v ∈ t.expand, ∃ w, t.viewables_by_location v.xy = some w ∧ w.xy = v.xy) ∧
    (∀ c : Coord, t.viewables_by_location c =
      (t.expand.filter (fun v => decide (v.xy = c))).getLast?) ∧
    (∀ (pre mid post : List Viewable) (A B : Viewable),
      t.expand = pre ++ A :: mid ++ B :: post →
      B.xy = A.xy → (∀ v ∈ mid, v.xy ≠ A.xy) → (∀ v ∈ post, v.xy ≠ A.xy) →
      t.viewables_by_location A.xy = some B) := by
  have hchar : ∀ c : Coord, t.viewables_by_location c =
      (t.expand.filter (fun v => decide (v.xy = c))).getLast? := by
    intro c
    rw [VTree.viewables_by_location, viewablesByLocationList,
      foldl_locationsUpdate]
    rcases hg : (t.expand.filter fun v => decide (v.xy = c)).getLast? with _ | w <;>
      simp [hg]
  refine ⟨?_, hchar, ?_⟩
  · intro v hv
    rw [hchar]
    have hmemf : v ∈ t.expand.filter (fun w => decide (w.xy = v.xy)) :=
      List.mem_filter.mpr ⟨hv, by simp⟩
    have hne : t.expand.filter (fun w => decide (w.xy = v.xy)) ≠ [] :=
      List.ne_nil_of_mem hmemf
    refine ⟨_, List.getLast?_eq_getLast_of_ne_nil hne, ?_⟩
    have hlast := List.getLast_mem hne
    have := (List.mem_filter.mp hlast).2
    simpa using this
  · intro pre mid post A B hexp hBA hmid hpost
    rw [hchar, hexp]
    have hfm : mid.filter (fun v => decide (v.xy = A.xy)) = [] :=
      List.filter_eq_nil.mpr (by intro v hv; simpa using hmid v hv)
    have hfp : post.filter (fun v => decide (v.xy = A.xy)) = [] :=
      List.filter_eq_nil.mpr (by intro v hv; simpa using hpost v hv)
    have hfA : List.filter (fun v => decide (v.xy = A.xy)) (A :: mid) = [A] := by
      rw [List.filter_cons_of_pos (by simp), hfm]
    have hfB : List.filter (fun v => decide (v.xy = A.xy)) (B :: post) = [B] := by
      rw [List.filter_cons_of_pos (by simpa using hBA), hfp]
    rw [List.filter_append, List.filter_append, hfA, hfB,
      List.getLast?_append_of_ne_nil _ (by simp)]
    rfl

/-- Witness for C8_flatten_lww at the concrete nested container, at the
shared coordinate (1,2) where the later member (id 2) wins. -/
theorem C8_flatten_lww_witness :
    fixTree.viewables_by_location (1, 2) =
      (fixTree.expand.filter (fun v => decide (v.xy = (1, 2)))).getLast? ∧
    fixTree.viewables_by_location (1, 2) = some ⟨2, (1, 2)⟩ :=
  ⟨(C8_flatten_lww fixTree).2.1 (1, 2), by decide⟩

/-- Componentwise equality of worlds. -/
theorem model_ext {a b : Model} (h1 : a.width = b.width) (h2 : a.height = b.height)
    (h3 : a.switching = b.switching) (h4 : a.snakes = b.snakes)
    (h5 : a.scores = b.scores) (h6 : a.apples = b.apples) (h7 : a.blocks = b.blocks)
    (h8 : a.walls = b.walls) (h9 : a.nextAppleId = b.nextAppleId)
    (h10 : a.collidableTails = b.collidableTails) : a = b := by
  cases a
  cases b
  simp only [Model.mk.injEq]
  exact ⟨h1, h2, h3, h4, h5, h6, h7, h8, h9, h10⟩

/-- Componentwise equality of snakes. -/
theorem snake_ext {a b : Snake} (h1 : a.xy = b.xy) (h2 : a.dxdy = b.dxdy)
    (h3 : a.head = b.head) (h4 : a.tail = b.tail) (h5 : a.dead = b.dead)
    (h6 : a.keymap = b.keymap) : a = b := by
  cases a
  cases b
  simp only [Snake.mk.injEq]
  exact ⟨h1, h2, h3, h4, h5, h6⟩

/-- C10: with two snakes whose tails are nonempty and uniformly colored
(the game invariant: tail colors are configured per body and every
recoloring is whole-tail), switch_snakes exchanges exactly the keymaps,
head colors and tail colors, leaves scores, apples, blocks, walls,
positions, headings, death flags and segment counts unchanged, and is an
involution. -/
theorem C10_switch (w : Model) (s0 s1 : Snake)
    (hs : w.snakes = [s0, s1])
    (h0 : s0.tail ≠ []) (h1 : s1.tail ≠ [])
    (hu0 : ∀ p ∈ s0.tail, p.color = s0.tail_color)
    (hu1 : ∀ p ∈ s1.tail, p.color = s1.tail_color) :
    (w.switch_snakes).scores = w.scores ∧
    (w.switch_snakes).apples = w.apples ∧
    (w.switch_snakes).blocks = w.blocks ∧
    (w.switch_snakes).walls = w.walls ∧
    ((w.switch_snakes).snakes.map Snake.keymap) = [s1.keymap, s0.keymap] ∧
    ((w.switch_snakes).snakes.map Snake.head_color) = [s1.head_color, s0.head_color] ∧
    ((w.switch_snakes).snakes.map Snake.tail_color) = [s1.tail_color, s0.tail_color] ∧
    ((w.switch_snakes).snakes.map (fun s => (s.xy, s.dxdy, s.dead, s.head.xy,
        s.head.dxdy, s.size, s.tail.map SnakePiece.xy, s.tail.map SnakePiece.dxdy))) =
      (w.snakes.map (fun s => (s.xy, s.dxdy, s.dead, s.head.xy, s.head.dxdy,
        s.size, s.tail.map SnakePiece.xy, s.tail.map SnakePiece.dxdy))) ∧
    (w.switch_snakes).switch_snakes = w := by
  obtain ⟨q0, r0, hq0⟩ := List.exists_cons_of_ne_nil h0
  obtain ⟨q1, r1, hq1⟩ := List.exists_cons_of_ne_nil h1
  have hswitch : w.switch_snakes =
      { w with snakes :=
          [{ s0 with keymap := s1.keymap,
                     head := { s0.head with color := s1.head.color },
                     tail := s0.tail.map (fun p => { p with color := s1.tail_color }) },
           { s1 with keymap := s0.keymap,
                     head := { s1.head with color := s0.head.color },
                     tail := s1.tail.map (fun p => { p with color := s0.tail_color }) }] } := by
    simp only [Model.switch_snakes, hs]
  have htc0 : Snake.tail_color
      { s0 with keymap := s1.keymap,
                head := { s0.head with color := s1.head.color },
                tail := s0.tail.map (fun p => { p with color := s1.tail_color }) } =
      s1.tail_color := by
    simp [Snake.tail_color, hq0]
  have htc1 : Snake.tail_color
      { s1 with keymap := s0.keymap,
                head := { s1.head with color := s0.head.color },
                tail := s1.tail.map (fun p => { p with color := s0.tail_color }) } =
      s0.tail_color := by
    simp [Snake.tail_color, hq1]
  have htail0 : (s0.tail.map (fun p => { p with color := s1.tail_color })).map
      (fun p => { p with color := s0.tail_color }) = s0.tail := by
    rw [List.map_map]
    have hcongr : ∀ p ∈ s0.tail,
        ((fun p => { p with color := s0.tail_color }) ∘
          (fun p => { p with color := s1.tail_color })) p = p := by
      intro p hp
      have hc := hu0 p hp
      cases p
      simp_all
    rw [List.map_congr_left hcongr, List.map_id']
  have htail1 : (s1.tail.map (fun p => { p with color := s0.tail_color })).map
      (fun p => { p with color := s1.tail_color }) = s1.tail := by
    rw [List.map_map]
    have hcongr : ∀ p ∈ s1.tail,
        ((fun p => { p with color := s1.tail_color }) ∘
          (fun p => { p with color := s0.tail_color })) p = p := by
      intro p hp
      have hc := hu1 p hp
      cases p
      simp_all
    rw [List.map_congr_left hcongr, List.map_id']
  refine ⟨by rw [hswitch], by rw [hswitch], by rw [hswitch], by rw [hswitch],
    by rw [hswitch]; rfl, by rw [hswitch]; rfl, ?_, ?_, ?_⟩
  · rw [hswitch]
    simp only [List.map_cons, List.map_nil, htc0, htc1]
  · rw [hswitch, hs]
    simp [Snake.size, List.map_map]
  · rw [hswitch]
    simp only [Model.switch_snakes]
    refine model_ext rfl rfl rfl ?_ rfl rfl rfl rfl rfl rfl
    rw [hs]
    simp only [List.cons.injEq, and_true]
    constructor
    · refine snake_ext rfl rfl rfl ?_ rfl rfl
      rw [htc1, htail0]
    · refine snake_ext rfl rfl rfl ?_ rfl rfl
      rw [htc0, htail1]

/-- Witness for C10_switch at the concrete two-snake world. -/
theorem C10_switch_witness :
    (fixWorld2.snakes =
      [fixSnake, (Snake.init (20, 20) DOWN 5 [(1, UP)]).set_tail_color (some 5)] ∧
     fixSnake.tail ≠ [] ∧
     ((Snake.init (20, 20) DOWN 5 [(1, UP)]).set_tail_color (some 5)).tail ≠ [] ∧
     (∀ p ∈ fixSnake.tail, p.color = fixSnake.tail_color) ∧
     (∀ p ∈ ((Snake.init (20, 20) DOWN 5 [(1, UP)]).set_tail_color (some 5)).tail,
       p.color = ((Snake.init (20, 20) DOWN 5 [(1, UP)]).set_tail_color (some 5)).tail_color)) ∧
    ((fixWorld2.switch_snakes).scores = fixWorld2.scores ∧
     (fixWorld2.switch_snakes).apples = fixWorld2.apples ∧
     (fixWorld2.switch_snakes).blocks = fixWorld2.blocks ∧
     (fixWorld2.switch_snakes).walls = fixWorld2.walls ∧
     ((fixWorld2.switch_snakes).snakes.map Snake.keymap) =
       [((Snake.init (20, 20) DOWN 5 [(1, UP)]).set_tail_color (some 5)).keymap,
        fixSnake.keymap] ∧
     ((fixWorld2.switch_snakes).snakes.map Snake.head_color) =
       [((Snake.init (20, 20) DOWN 5 [(1, UP)]).set_tail_color (some 5)).head_color,
        fixSnake.head_color] ∧
     ((fixWorld2.switch_snakes).snakes.map Snake.tail_color) =
       [((Snake.init (20, 20) DOWN 5 [(1, UP)]).set_tail_color (some 5)).tail_color,
        fixSnake.tail_color] ∧
     ((fixWorld2.switch_snakes).snakes.map (fun s => (s.xy, s.dxdy, s.dead, s.head.xy,
         s.head.dxdy, s.size, s.tail.map SnakePiece.xy, s.tail.map SnakePiece.dxdy))) =
       (fixWorld2.snakes.map (fun s => (s.xy, s.dxdy, s.dead, s.head.xy, s.head.dxdy,
         s.size, s.tail.map SnakePiece.xy, s.tail.map SnakePiece.dxdy))) ∧
     (fixWorld2.switch_snakes).switch_snakes = fixWorld2) :=
  ⟨⟨by decide, by decide, by decide, by decide, by decide⟩,
   C10_switch fixWorld2 fixSnake
     ((Snake.init (20, 20) DOWN 5 [(1, UP)]).set_tail_color (some 5))
     (by decide) (by decide) (by decide) (by decide) (by decide)⟩

/-! Construction and reachability lemmas for the collidable-group claim. -/

theorem tailChain_length : ∀ (n : Nat) (l : SnakePiece), (tailChain l n).length = n
  | 0, _ => rfl
  | n + 1, l => by simp [tailChain, tailChain_length n]

theorem init_snake_tail_length (xy dxdy : Coord) (L : Nat) (km : Keymap) :
    (Snake.init xy dxdy L km).tail.length = 1 + (L - 2) := by
  simp [Snake.init, create_tail, tailChain_length]

theorem init_model_snakes_tail_length (L wd ht : Nat) (paired switching : Bool)
    (kms : List Keymap) (al bl : List Coord) :
    ∀ sk ∈ (Model.init L wd ht paired switching kms al bl).snakes,
      sk.tail.length = 1 + (L - 2) := by
  intro sk hsk
  simp only [Model.init] at hsk
  obtain ⟨x, -, rfl⟩ := List.mem_map.mp hsk
  simp [Snake.set_tail_color, Snake.set_head_color, init_snake_tail_length]

theorem init_model_snakes_length (L wd ht : Nat) (paired switching : Bool)
    (kms : List Keymap) (al bl : List Coord) :
    (Model.init L wd ht paired switching kms al bl).snakes.length =
      min 2 kms.length := by
  have hst : (get_starting_locations wd ht paired).length = 2 := by
    cases paired <;> rfl
  simp [Model.init, List.length_zip, hst]

theorem sliceRefs_mem (s a b : Nat) :
    ∀ (i : Nat) (l : List SnakePiece),
      ((a, b) ∈ sliceRefs s i l ↔ a = s ∧ i ≤ b ∧ b < i + l.length) := by
  intro i l
  induction l generalizing i with
  | nil => simp [sliceRefs]
  | cons p rest ih =>
    simp only [sliceRefs, List.mem_cons, ih (i + 1), Prod.mk.injEq,
      List.length_cons]
    omega

theorem tailRefs_mem (tl : Nat) :
    ∀ (sks : List Snake) (s0 : Nat), (∀ sk ∈ sks, sk.tail.length = tl) →
      ∀ (a b : Nat), ((a, b) ∈ tailRefs s0 sks ↔
        s0 ≤ a ∧ a < s0 + sks.length ∧ 1 ≤ b ∧ b < tl) := by
  intro sks
  induction sks with
  | nil =>
    intro s0 h a b
    simp [tailRefs]
    omega
  | cons sk rest ih =>
    intro s0 h a b
    have hsk : sk.tail.length = tl := h sk (by simp)
    have hrest : ∀ x ∈ rest, x.tail.length = tl := fun x hx => h x (by simp [hx])
    simp only [tailRefs, List.mem_append, sliceRefs_mem, ih (s0 + 1) hrest,
      List.length_drop, hsk, List.length_cons]
    omega

theorem collidableEntities_tailRef_mem (w : Model) (sIdx tIdx : Nat) :
    Entity.tailRef sIdx tIdx ∈ w.collidableEntities ↔
      (sIdx, tIdx) ∈ w.collidableTails := by
  constructor
  · intro h
    rcases List.mem_append.mp h with h | h
    · rcases List.mem_append.mp h with h | h
      · rcases List.mem_append.mp h with h | h
        · obtain ⟨x, -, hx⟩ := List.mem_map.mp h
          exact Entity.noConfusion hx
        · obtain ⟨x, -, hx⟩ := List.mem_map.mp h
          exact Entity.noConfusion hx
      · obtain ⟨x, -, hx⟩ := List.mem_map.mp h
        exact Entity.noConfusion hx
    · obtain ⟨⟨xa, xb⟩, hx, he⟩ := List.mem_map.mp h
      injection he with h1 h2
      subst h1
      subst h2
      exact hx
  · intro h
    exact List.mem_append_right _ (List.mem_map.mpr ⟨(sIdx, tIdx), h, rfl⟩)

theorem apple_callback_frame {a : Apple} {w : Model} {i : Nat} {na nb : Coord}
    {w' : Model} (h : a.collision_callback w i na nb = some w') :
    w'.collidableTails = w.collidableTails ∧ w'.walls = w.walls := by
  rw [Apple.collision_callback] at h
  rcases hget : (w.increment_score i).snakes.get? i with _ | s <;> rw [hget] at h
  · simp at h
  · rw [Option.some_bind] at h
    rcases hadd : s.add_tail_piece with _ | s2 <;> rw [hadd] at h
    · simp at h
    · rw [Option.some_bind] at h
      simp only [Model.remove_apple] at h
      split at h
      · rw [Option.map_some'] at h
        injection h with h
        subst h
        constructor
        · show (if _ then Model.switch_snakes _ else _).collidableTails = _
          split
          · rw [(switch_snakes_frame _).2.2.2.2.1]
            rfl
          · rfl
        · show (if _ then Model.switch_snakes _ else _).walls = _
          split
          · rw [(switch_snakes_frame _).2.2.2.1]
            rfl
          · rfl
      · exact Option.noConfusion h

theorem step_preserves_frame {w w' : Model} (h : Model.Step w w') :
    w'.collidableTails = w.collidableTails ∧ w'.walls = w.walls := by
  cases h with
  | turn i d => exact ⟨rfl, rfl⟩
  | advance i => exact ⟨rfl, rfl⟩
  | obstacleHit i => exact ⟨rfl, rfl⟩
  | appleHit w' a i na nb heq => exact apple_callback_frame heq

theorem reachable_frame {w0 w : Model} (hr : Model.Reachable w0 w) :
    w.collidableTails = w0.collidableTails ∧ w.walls = w0.walls := by
  induction hr with
  | refl => exact ⟨rfl, rfl⟩
  | step hr hstep ih =>
    obtain ⟨h1, h2⟩ := step_preserves_frame hstep
    exact ⟨h1.trans ih.1, h2.trans ih.2⟩

/-- C5 counterexample: in the constructed world the first tail segment of
snake 0 exists (tail length 4) but its reference (0,0) is not a member of
the collidable group; and after snake 0 eats the apple and grows to tail
length 5, the grown segment's reference (0,4) is not a member either,
because collidable_objects holds a construction-time snapshot of
snake.tail[1:]. -/
theorem C5_counterexample :
    (fixInitWorld.snakes.get? 0).map (fun s => s.tail.length) = some 4 ∧
    Entity.tailRef 0 0 ∉ fixInitWorld.collidableEntities ∧
    Apple.collision_callback fixApple fixInitWorld 0 (4, 4) (6, 6) =
      some fixEatenWorld ∧
    (fixEatenWorld.snakes.get? 0).map (fun s => s.tail.length) = some 5 ∧
    Entity.tailRef 0 4 ∉ fixEatenWorld.collidableEntities := by decide

/-- C5 (amended): in every reachable world state the collidable group
contains every current block, every current apple and every wall segment
(these collections are consulted live), while the tail references it
contains are exactly the construction-time snapshot: for each of the
snakes (indices below min 2 (number of keymaps)), the tail segments at
indices 1 through L-2; the first tail segment behind each head (index 0)
and every segment gained by growth later (index L-1 and beyond) are never
members. -/
theorem C5_collidable_membership (L wd ht : Nat) (paired switching : Bool)
    (kms : List Keymap) (al bl : List Coord) (w : Model)
    (hr : Model.Reachable (Model.init L wd ht paired switching kms al bl) w) :
    (∀ b ∈ w.blocks, Entity.block b ∈ w.collidableEntities) ∧
    (∀ a ∈ w.apples, Entity.apple a ∈ w.collidableEntities) ∧
    (∀ c ∈ w.walls, Entity.wall c ∈ w.collidableEntities) ∧
    (∀ sIdx tIdx : Nat, Entity.tailRef sIdx tIdx ∈ w.collidableEntities ↔
      (sIdx < min 2 kms.length ∧ 1 ≤ tIdx ∧ tIdx < 1 + (L - 2))) := by
  obtain ⟨hct, hwalls⟩ := reachable_frame hr
  have hinit : (Model.init L wd ht paired switching kms al bl).collidableTails =
      tailRefs 0 (Model.init L wd ht paired switching kms al bl).snakes := rfl
  have hmem : ∀ sIdx tIdx : Nat,
      ((sIdx, tIdx) ∈ w.collidableTails ↔
        (sIdx < min 2 kms.length ∧ 1 ≤ tIdx ∧ tIdx < 1 + (L - 2))) := by
    intro sIdx tIdx
    rw [hct, hinit,
      tailRefs_mem (1 + (L - 2)) _ 0
        (init_model_snakes_tail_length L wd ht paired switching kms al bl),
      init_model_snakes_length]
    omega
  refine ⟨?_, ?_, ?_, ?_⟩
  · intro b hb
    exact List.mem_append_left _ (List.mem_append_left _
      (List.mem_append_left _ (List.mem_map_of_mem _ hb)))
  · intro a ha
    exact List.mem_append_left _ (List.mem_append_left _
      (List.mem_append_right _ (List.mem_map_of_mem _ ha)))
  · intro c hc
    exact List.mem_append_left _
      (List.mem_append_right _ (List.mem_map_of_mem _ hc))
  · intro sIdx tIdx
    rw [collidableEntities_tailRef_mem]
    exact hmem sIdx tIdx

/-- Witness for C5_collidable_membership at the constructed world itself
(the reflexive reachable state). -/
theorem C5_collidable_membership_witness :
    (∀ b ∈ fixInitWorld.blocks, Entity.block b ∈ fixInitWorld.collidableEntities) ∧
    (∀ a ∈ fixInitWorld.apples, Entity.apple a ∈ fixInitWorld.collidableEntities) ∧
    (∀ c ∈ fixInitWorld.walls, Entity.wall c ∈ fixInitWorld.collidableEntities) ∧
    (∀ sIdx tIdx : Nat,
      Entity.tailRef sIdx tIdx ∈ fixInitWorld.collidableEntities ↔
      (sIdx < min 2 ([[], []] : List Keymap).length ∧ 1 ≤ tIdx ∧
        tIdx < 1 + (5 - 2))) :=
  C5_collidable_membership 5 12 10 false false [[], []] [(3, 3)] [(7, 7)]
    fixInitWorld Model.Reachable.refl
